import Mathlib

/-!
Verification of the particle-field animation engine in `src/main.js`.

JavaScript numbers are modelled as rationals (`ℚ`); a value that JS would
turn into NaN (here: the `0/0` arising from a zero pointer distance) is
modelled as `none` in `Option ℚ`, and NaN propagation through arithmetic
and the JS rule that every comparison with NaN is false are reflected in
the lifted operations below.  `Math.sqrt` is irrational on most rationals,
so the square-root function is a parameter `σ : ℚ → ℚ` of the definitions
that use it; theorems constrain `σ` only at the points where the code
actually evaluates it, and concrete instances use `ratSqrt`, which is the
exact square root whenever one exists in `ℚ`.
-/

/-- Lifted addition on JS numbers (`none` = NaN propagates). -/
def qAdd : Option ℚ → Option ℚ → Option ℚ
  | some a, some b => some (a + b)
  | _, _ => none

/-- Lifted subtraction on JS numbers. -/
def qSub : Option ℚ → Option ℚ → Option ℚ
  | some a, some b => some (a - b)
  | _, _ => none

/-- Lifted multiplication on JS numbers. -/
def qMul : Option ℚ → Option ℚ → Option ℚ
  | some a, some b => some (a * b)
  | _, _ => none

/-- Lifted division on JS numbers.  The only division in the source whose
denominator can be zero is `dx / distance`, where `distance = 0` forces
`dx = 0`; JS evaluates `0/0` to NaN, modelled as `none`. -/
def qDiv : Option ℚ → Option ℚ → Option ℚ
  | some a, some b => if b = 0 then none else some (a / b)
  | _, _ => none

/-- Lifted strict comparison: in JS every comparison with NaN is false. -/
def qLt : Option ℚ → Option ℚ → Bool
  | some a, some b => decide (a < b)
  | _, _ => false

/-- JS `q % 1` for the nonnegative operands the program produces. -/
def jsMod1 (q : ℚ) : ℚ := q - (⌊q⌋ : ℚ)

/-- JS `Math.round` (half-up, i.e. `floor (x + 1/2)`). -/
def jsRound (q : ℚ) : ℤ := ⌊q + 1 / 2⌋

/-- Exact rational square root when one exists (used to instantiate the
square-root parameter `σ` at concrete perfect-square inputs). -/
def ratSqrt (q : ℚ) : ℚ := (Nat.sqrt q.num.toNat : ℚ) / (Nat.sqrt q.den : ℚ)

/-! ## Color cycle model (`sunsetColors`, `interpolateColor`,
`getCurrentSunsetColor` in `src/main.js`) -/

/-- An RGB triple; channels are integers after JS `Math.round`. -/
structure RGB where
  r : ℤ
  g : ℤ
  b : ℤ
deriving DecidableEq, Repr

/-- The sunset palette from `src/main.js` lines 66-74. -/
def sunsetColors : List RGB :=
  [⟨255, 140, 66⟩,   -- warm orange
   ⟨201, 108, 77⟩,   -- terracotta
   ⟨212, 165, 116⟩,  -- gold
   ⟨255, 120, 80⟩,   -- coral
   ⟨180, 100, 120⟩,  -- dusty rose
   ⟨156, 82, 100⟩,   -- mauve
   ⟨201, 108, 77⟩]   -- back to terracotta

/-- Array indexing `sunsetColors[i]`; in-range at every call site. -/
def paletteAt (i : ℕ) : RGB := sunsetColors.getD i ⟨0, 0, 0⟩

/-- `interpolateColor` from `src/main.js` lines 76-82. -/
def interpolateColor (color1 color2 : RGB) (factor : ℚ) : RGB :=
  ⟨jsRound ((color1.r : ℚ) + ((color2.r : ℚ) - (color1.r : ℚ)) * factor),
   jsRound ((color1.g : ℚ) + ((color2.g : ℚ) - (color1.g : ℚ)) * factor),
   jsRound ((color1.b : ℚ) + ((color2.b : ℚ) - (color1.b : ℚ)) * factor)⟩

/-- `getCurrentSunsetColor` from `src/main.js` lines 84-95, as a function
of the global `colorTime` and the per-particle `offset`. -/
def getCurrentSunsetColor (colorTime : ℚ) (offset : ℚ) : RGB :=
  let adjustedTime := jsMod1 (colorTime + offset)
  let totalSegments : ℚ := (sunsetColors.length : ℚ) - 1
  let segment := adjustedTime * totalSegments
  let index : ℤ := ⌊segment⌋
  let factor := segment - (index : ℚ)
  let color1 := paletteAt index.toNat
  let color2 := paletteAt (min (index.toNat + 1) (sunsetColors.length - 1))
  interpolateColor color1 color2 factor

/-! ## Particle sizing policy (`init` in `src/main.js` lines 160-182) -/

/-- The `(maxParticles, densityFactor)` pair chosen by `init`:
reduced-motion first, then the mobile branch, then the defaults. -/
def initProfile (reduced mobile : Bool) : ℚ × ℚ :=
  if reduced then (20, 30000)
  else if mobile then (40, 20000)
  else (100, 15000)

/-- The (possibly fractional) loop bound
`Math.min(canvas.width * canvas.height / densityFactor, maxParticles)`. -/
def numberOfParticles (w h : ℚ) (reduced mobile : Bool) : ℚ :=
  min (w * h / (initProfile reduced mobile).2) (initProfile reduced mobile).1

/-- The number of iterations of `for (let i = 0; i < numberOfParticles; i++)`,
i.e. the number of naturals `i` with `(i : ℚ) < numberOfParticles`: the
ceiling of the bound.  `particleCount_loop_iff` below justifies this. -/
def particleCount (w h : ℚ) (reduced mobile : Bool) : ℕ :=
  ⌈numberOfParticles w h reduced mobile⌉₊

/-- The loop body runs exactly for the indices below the ceiling, so the
translation of the `for` loop by `Nat.ceil` is faithful. -/
theorem particleCount_loop_iff (w h : ℚ) (reduced mobile : Bool) (i : ℕ) :
    ((i : ℚ) < numberOfParticles w h reduced mobile) ↔
      i < particleCount w h reduced mobile := by
  rw [particleCount, Nat.lt_ceil]

/-- Evaluation helper for `Nat.ceil` at concrete rationals. -/
theorem natCeil_eval (q : ℚ) (n : ℕ) (hn : n ≠ 0) (h1 : (n : ℚ) - 1 < q)
    (h2 : q ≤ (n : ℚ)) : ⌈q⌉₊ = n := by
  rw [Nat.ceil_eq_iff hn]
  constructor
  · push_cast [Nat.cast_sub (Nat.one_le_iff_ne_zero.mpr hn)]
    linarith
  · exact h2

/-- Evaluation helper for `jsMod1` when the wrapped value is known. -/
theorem jsMod1_eval (q a : ℚ) (hq : q = a) (h1 : 0 ≤ a) (h2 : a < 1) :
    jsMod1 q = a := by
  rw [jsMod1, hq]
  have h : ⌊a⌋ = 0 := by
    rw [Int.floor_eq_iff]
    constructor <;> push_cast <;> linarith
  rw [h]
  push_cast
  ring

/-- Evaluation helper for `jsRound` at concrete rationals. -/
theorem jsRound_eq (q : ℚ) (n : ℤ) (h1 : (n : ℚ) ≤ q + 1 / 2)
    (h2 : q + 1 / 2 < (n : ℚ) + 1) : jsRound q = n := by
  unfold jsRound
  rw [Int.floor_eq_iff]
  exact ⟨h1, h2⟩

/-- Reduces `getCurrentSunsetColor` to a single palette-segment
interpolation once the wrapped phase and its segment index are known. -/
theorem getCurrentSunsetColor_eval (t ofs a : ℚ) (k : ℕ)
    (hmod : jsMod1 (t + ofs) = a) (hk : k ≤ 5)
    (h1 : (k : ℚ) ≤ a * 6) (h2 : a * 6 < (k : ℚ) + 1) :
    getCurrentSunsetColor t ofs =
      interpolateColor (paletteAt k) (paletteAt (k + 1)) (a * 6 - (k : ℚ)) := by
  have hlen : ((sunsetColors.length : ℚ) - 1) = 6 := by
    norm_num [sunsetColors]
  have hlen2 : sunsetColors.length - 1 = 6 := by
    norm_num [sunsetColors]
  have hfloor : ⌊a * 6⌋ = (k : ℤ) := by
    rw [Int.floor_eq_iff]
    constructor
    · exact_mod_cast h1
    · push_cast
      exact h2
  have hmin : min (k + 1) 6 = k + 1 := by omega
  simp only [getCurrentSunsetColor, hmod, hlen, hlen2, hfloor,
    Int.toNat_natCast, hmin, Int.cast_natCast]

/-! ## Particle (`class Particle` in `src/main.js` lines 102-158)

Positions are `Option ℚ` so that the NaN produced by a zero pointer
distance can be represented; all other fields stay rational under every
operation of the source. -/

structure Particle where
  x : Option ℚ
  y : Option ℚ
  size : ℚ
  baseX : ℚ
  baseY : ℚ
  density : ℚ
  vx : ℚ
  vy : ℚ
  colorOffset : ℚ
  pulsePhase : ℚ
deriving DecidableEq, Repr

/-- The `Particle` constructor, with the seven `Math.random()` draws and
`Math.PI` supplied as parameters. -/
def mkParticle (r1 r2 r3 r4 r5 r6 r7 r8 : ℚ) (w h pi : ℚ) : Particle :=
  { x := some (r1 * w)
    y := some (r2 * h)
    size := r3 * 2 + 1
    baseX := r1 * w
    baseY := r2 * h
    density := r4 * 30 + 1
    vx := (r5 - 1 / 2) * (1 / 2)
    vy := (r6 - 1 / 2) * (1 / 2)
    colorOffset := r7 * (3 / 10)
    pulsePhase := r8 * pi * 2 }

/-- `Particle.update` from `src/main.js` lines 116-140.  `σ` stands for
`Math.sqrt`; `mouseX`/`mouseY` are the tracked pointer, `w`/`h` the canvas
extent. -/
def Particle.update (σ : ℚ → ℚ) (mouseX mouseY w h : ℚ) (p : Particle) :
    Particle :=
  let dx := qSub (some mouseX) p.x
  let dy := qSub (some mouseY) p.y
  let distance := (qAdd (qMul dx dx) (qMul dy dy)).map σ
  let forceDirectionX := qDiv dx distance
  let forceDirectionY := qDiv dy distance
  let maxDistance : ℚ := 150
  let force := qDiv (qSub (some maxDistance) distance) (some maxDistance)
  let directionX := qMul (qMul (qMul forceDirectionX force) (some p.density)) (some (1 / 2))
  let directionY := qMul (qMul (qMul forceDirectionY force) (some p.density)) (some (1 / 2))
  if qLt distance (some maxDistance) then
    { p with x := qSub p.x directionX, y := qSub p.y directionY }
  else
    let x1 := qAdd p.x (some p.vx)
    let y1 := qAdd p.y (some p.vy)
    let vx1 := if qLt x1 (some 0) || qLt (some w) x1 then -p.vx else p.vx
    let vy1 := if qLt y1 (some 0) || qLt (some h) y1 then -p.vy else p.vy
    { p with x := x1, y := y1, vx := vx1, vy := vy1 }

/-- A canvas primitive issued by `Particle.draw` or `connectParticles`. -/
inductive DrawCmd where
  | disc (x y radius : Option ℚ) (color : RGB) (alpha : ℚ)
  | line (ax ay bx bY : Option ℚ) (color : RGB) (alpha : Option ℚ)
deriving DecidableEq, Repr

/-- `Particle.draw` from `src/main.js` lines 142-157: it only reads the
particle and emits canvas primitives; `sin` stands for `Math.sin` and `pi`
for `Math.PI`. -/
def Particle.draw (sin : ℚ → ℚ) (pi : ℚ) (colorTime : ℚ) (p : Particle) :
    List DrawCmd :=
  let color := getCurrentSunsetColor colorTime p.colorOffset
  let pulse := 1 / 2 + 3 / 10 * sin (colorTime * pi * 4 + p.pulsePhase)
  [DrawCmd.disc p.x p.y (qMul (some p.size) (some (8 / 10 + pulse * (4 / 10))))
      color (1 / 2 + pulse * (3 / 10))] ++
    (if p.size > 3 / 2 then
      [DrawCmd.disc p.x p.y (qMul (some p.size) (some 3)) color
        (1 / 10 + pulse * (1 / 10))]
    else [])

/-! ## Connector pass (`connectParticles` in `src/main.js` lines 184-214) -/

/-- The body of the inner loop of `connectParticles` for one unordered
pair: `none` when the squared-distance early exit skips the pair,
otherwise the stroked line with its blended color and scaled opacity. -/
def pairSegment (σ : ℚ → ℚ) (mobile : Bool) (colorTime : ℚ)
    (pa pb : Particle) : Option DrawCmd :=
  let maxDistance : ℚ := if mobile then 100 else 120
  let dx := qSub pa.x pb.x
  let dy := qSub pa.y pb.y
  let distanceSquared := qAdd (qMul dx dx) (qMul dy dy)
  if qLt (some (maxDistance * maxDistance)) distanceSquared then none
  else
    let distance := distanceSquared.map σ
    let opacity := qSub (some 1) (qDiv distance (some maxDistance))
    let colorA := getCurrentSunsetColor colorTime pa.colorOffset
    let colorB := getCurrentSunsetColor colorTime pb.colorOffset
    let avgColor := interpolateColor colorA colorB (1 / 2)
    some (DrawCmd.line pa.x pa.y pb.x pb.y avgColor
      (qMul opacity (some (1 / 4))))

/-- The double loop of `connectParticles`: every unordered pair `(a, b)`
with `a < b`, in source order. -/
def connectParticles (σ : ℚ → ℚ) (mobile : Bool) (colorTime : ℚ) :
    List Particle → List DrawCmd
  | [] => []
  | p :: rest =>
      rest.filterMap (pairSegment σ mobile colorTime p) ++
        connectParticles σ mobile colorTime rest

/-! ## Animation lifecycle (`animate`, `startAnimation`, `stopAnimation`
and the event handlers in `src/main.js` lines 216-307)

`pending` models the browser's queue of scheduled-frame callbacks for
this program: `requestAnimationFrame` appends a fresh handle,
`cancelAnimationFrame` removes one, and a frame can only fire by being
taken from the queue.  "Exactly one active render loop" is
`pending.length = 1`. -/

structure AnimState where
  isPageVisible : Bool
  isCanvasVisible : Bool
  isAnimating : Bool
  animationId : Option ℕ
  pending : List ℕ
  nextId : ℕ
  colorTime : ℚ
  mouseX : ℚ
  mouseY : ℚ
  width : ℚ
  height : ℚ
  particles : List Particle

/-- `animate` from `src/main.js` lines 216-236: bail out (clearing
`isAnimating`) unless both visibility signals hold; otherwise step the
color clock and the particles and self-schedule via
`requestAnimationFrame`, storing the fresh handle in `animationId`. -/
def animate (σ : ℚ → ℚ) (s : AnimState) : AnimState :=
  if !s.isPageVisible || !s.isCanvasVisible then
    { s with isAnimating := false }
  else
    { s with
        isAnimating := true
        colorTime := jsMod1 (s.colorTime + 8 / 10000)
        particles := s.particles.map
          (Particle.update σ s.mouseX s.mouseY s.width s.height)
        pending := s.pending ++ [s.nextId]
        animationId := some s.nextId
        nextId := s.nextId + 1 }

/-- `startAnimation` from `src/main.js` lines 239-243. -/
def startAnimation (σ : ℚ → ℚ) (s : AnimState) : AnimState :=
  if !s.isAnimating && s.isPageVisible && s.isCanvasVisible then animate σ s
  else s

/-- `stopAnimation` from `src/main.js` lines 246-252:
`cancelAnimationFrame` removes the stored handle from the queue (a no-op
when that frame already fired). -/
def stopAnimation (s : AnimState) : AnimState :=
  match s.animationId with
  | some i =>
      { s with
          pending := s.pending.erase i
          animationId := none
          isAnimating := false }
  | none => { s with isAnimating := false }

/-- The external events that drive the lifecycle: the `visibilitychange`
handler (lines 273-281), the canvas `IntersectionObserver` callback
(lines 284-294), a scheduled frame firing, the pointer handlers
(lines 255-267) and `beforeunload` (lines 299-302). -/
inductive AnimEvent where
  | pageVis (b : Bool)
  | canvasVis (b : Bool)
  | frameFired
  | mouseMove (mx my : ℚ)
  | unload

/-- One event-handler invocation. -/
def stepEvent (σ : ℚ → ℚ) (s : AnimState) : AnimEvent → AnimState
  | AnimEvent.pageVis b =>
      let s1 := { s with isPageVisible := b }
      if s1.isPageVisible && s1.isCanvasVisible then startAnimation σ s1
      else stopAnimation s1
  | AnimEvent.canvasVis b =>
      let s1 := { s with isCanvasVisible := b }
      if s1.isCanvasVisible && s1.isPageVisible then startAnimation σ s1
      else stopAnimation s1
  | AnimEvent.frameFired =>
      match s.pending with
      | [] => s
      | _ :: rest => animate σ { s with pending := rest }
  | AnimEvent.mouseMove mx my =>
      if s.isAnimating then { s with mouseX := mx, mouseY := my } else s
  | AnimEvent.unload => stopAnimation s

/-- The state right after the initialization code at lines 304-307 ran:
fresh flags and queue (page visibility is whatever `document.hidden` said,
the canvas observer has not fired yet so `isCanvasVisible` is the initial
`true`), then the initial `startAnimation()` call. -/
def initState (σ : ℚ → ℚ) (pv : Bool) (w h : ℚ) (ps : List Particle) :
    AnimState :=
  startAnimation σ
    { isPageVisible := pv
      isCanvasVisible := true
      isAnimating := false
      animationId := none
      pending := []
      nextId := 1
      colorTime := 0
      mouseX := 0
      mouseY := 0
      width := w
      height := h
      particles := ps }

/-- States the program can actually be in: the initial state and
everything reachable from it through event handlers. -/
inductive Reach (σ : ℚ → ℚ) (pv : Bool) (w h : ℚ) (ps : List Particle) :
    AnimState → Prop
  | init : Reach σ pv w h ps (initState σ pv w h ps)
  | step (s : AnimState) (e : AnimEvent) (h2 : Reach σ pv w h ps s) :
      Reach σ pv w h ps (stepEvent σ s e)

/-- The lifecycle invariant: while animating there is exactly one
scheduled frame and `animationId` holds its handle; while stopped nothing
is scheduled. -/
def LoopInv (s : AnimState) : Prop :=
  (s.isAnimating = true → ∃ i, s.animationId = some i ∧ s.pending = [i]) ∧
    (s.isAnimating = false → s.pending = [])

theorem LoopInv_animate (σ : ℚ → ℚ) (s : AnimState) (hp : s.pending = []) :
    LoopInv (animate σ s) := by
  unfold animate
  by_cases hv : (!s.isPageVisible || !s.isCanvasVisible) = true
  · rw [if_pos hv]
    exact ⟨fun h => by simp at h, fun _ => hp⟩
  · rw [if_neg hv]
    refine ⟨fun _ => ⟨s.nextId, rfl, ?_⟩, fun h => by simp at h⟩
    simp [hp]

theorem LoopInv_start (σ : ℚ → ℚ) (s : AnimState) (h : LoopInv s) :
    LoopInv (startAnimation σ s) := by
  unfold startAnimation
  by_cases hg : (!s.isAnimating && s.isPageVisible && s.isCanvasVisible) = true
  · rw [if_pos hg]
    simp only [Bool.and_assoc, Bool.and_eq_true, Bool.not_eq_true'] at hg
    exact LoopInv_animate σ s (h.2 hg.1)
  · rw [if_neg hg]
    exact h

theorem stopAnimation_isAnimating (s : AnimState) :
    (stopAnimation s).isAnimating = false := by
  unfold stopAnimation
  cases s.animationId <;> rfl

theorem LoopInv_stop (s : AnimState) (h : LoopInv s) :
    LoopInv (stopAnimation s) := by
  unfold stopAnimation
  cases hid : s.animationId with
  | some i =>
      refine ⟨fun hc => by simp at hc, fun _ => ?_⟩
      cases han : s.isAnimating with
      | true =>
          obtain ⟨j, hj1, hj2⟩ := h.1 han
          rw [hid] at hj1
          obtain rfl : j = i := by injection hj1 with e; exact e.symm
          simp [hj2]
      | false => simp [h.2 han]
  | none =>
      refine ⟨fun hc => by simp at hc, fun _ => ?_⟩
      cases han : s.isAnimating with
      | true =>
          obtain ⟨j, hj1, _⟩ := h.1 han
          rw [hid] at hj1
          exact absurd hj1 (by simp)
      | false => exact h.2 han

theorem LoopInv_step (σ : ℚ → ℚ) (s : AnimState) (e : AnimEvent)
    (h : LoopInv s) : LoopInv (stepEvent σ s e) := by
  cases e with
  | pageVis b =>
      simp only [stepEvent]
      split
      · exact LoopInv_start σ _ h
      · exact LoopInv_stop _ h
  | canvasVis b =>
      simp only [stepEvent]
      split
      · exact LoopInv_start σ _ h
      · exact LoopInv_stop _ h
  | frameFired =>
      simp only [stepEvent]
      cases hp : s.pending with
      | nil => exact h
      | cons i rest =>
          have hrest : rest = [] := by
            cases han : s.isAnimating with
            | true =>
                obtain ⟨j, _, hj2⟩ := h.1 han
                rw [hp] at hj2
                simp only [List.cons.injEq] at hj2
                exact hj2.2
            | false =>
                have h2 := h.2 han
                rw [hp] at h2
                exact absurd h2 (by simp)
          subst hrest
          exact LoopInv_animate σ _ rfl
  | mouseMove mx my =>
      simp only [stepEvent]
      split
      · exact h
      · exact h
  | unload => exact LoopInv_stop _ h

theorem Reach_LoopInv (σ : ℚ → ℚ) (pv : Bool) (w h : ℚ)
    (ps : List Particle) (s : AnimState) (hr : Reach σ pv w h ps s) :
    LoopInv s := by
  induction hr with
  | init =>
      apply LoopInv_start
      exact ⟨fun hc => by simp at hc, fun _ => rfl⟩
  | step s e _ ih => exact LoopInv_step σ s e ih

/-! ## Supporting evaluation and bound lemmas for the claims -/

/-- Evaluation helper for `Nat.floor` at concrete rationals. -/
theorem natFloor_eval (q : ℚ) (n : ℕ) (h0 : 0 ≤ q) (h1 : (n : ℚ) ≤ q)
    (h2 : q < (n : ℚ) + 1) : ⌊q⌋₊ = n := by
  rw [Nat.floor_eq_iff h0]
  exact ⟨h1, h2⟩

/-- A capped ceiling never exceeds the (natural) cap. -/
theorem ceil_min_le (a : ℚ) (n : ℕ) : ⌈min a (n : ℚ)⌉₊ ≤ n :=
  Nat.ceil_le.mpr (min_le_right a (n : ℚ))

/-- Every palette lookup (in-range or the unreachable default) has all
three channels in `[0, 255]`. -/
theorem paletteAt_bounds (i : ℕ) :
    (0 ≤ (paletteAt i).r ∧ (paletteAt i).r ≤ 255) ∧
      (0 ≤ (paletteAt i).g ∧ (paletteAt i).g ≤ 255) ∧
      (0 ≤ (paletteAt i).b ∧ (paletteAt i).b ≤ 255) := by
  match i with
  | 0 => decide
  | 1 => decide
  | 2 => decide
  | 3 => decide
  | 4 => decide
  | 5 => decide
  | 6 => decide
  | n + 7 =>
      have h : paletteAt (n + 7) = ⟨0, 0, 0⟩ := by
        apply List.getD_eq_default
        simp [sunsetColors]
      rw [h]
      decide

/-- A rounded value between two integer bounds stays between them. -/
theorem jsRound_bounds (q : ℚ) (lo hi : ℤ) (h1 : (lo : ℚ) ≤ q)
    (h2 : q ≤ (hi : ℚ)) : lo ≤ jsRound q ∧ jsRound q ≤ hi := by
  constructor
  · rw [jsRound]
    rw [Int.le_floor]
    linarith
  · rw [jsRound]
    rw [← Int.lt_add_one_iff, Int.floor_lt]
    push_cast
    linarith

/-- A single interpolated, rounded channel stays in `[0, 255]` whenever
both anchors do and the factor lies in `[0, 1]`. -/
theorem interp_channel_bounds (c1 c2 : ℤ) (f : ℚ) (hc1 : 0 ≤ c1)
    (hc1h : c1 ≤ 255) (hc2 : 0 ≤ c2) (hc2h : c2 ≤ 255) (hf0 : 0 ≤ f)
    (hf1 : f ≤ 1) :
    0 ≤ jsRound ((c1 : ℚ) + ((c2 : ℚ) - (c1 : ℚ)) * f) ∧
      jsRound ((c1 : ℚ) + ((c2 : ℚ) - (c1 : ℚ)) * f) ≤ 255 := by
  have e : (c1 : ℚ) + ((c2 : ℚ) - (c1 : ℚ)) * f =
      (c1 : ℚ) * (1 - f) + (c2 : ℚ) * f := by ring
  have hc1q : (0 : ℚ) ≤ (c1 : ℚ) := by exact_mod_cast hc1
  have hc1hq : (c1 : ℚ) ≤ 255 := by exact_mod_cast hc1h
  have hc2q : (0 : ℚ) ≤ (c2 : ℚ) := by exact_mod_cast hc2
  have hc2hq : (c2 : ℚ) ≤ 255 := by exact_mod_cast hc2h
  have hlo : (0 : ℚ) ≤ (c1 : ℚ) + ((c2 : ℚ) - (c1 : ℚ)) * f := by
    rw [e]
    have t1 : (0 : ℚ) ≤ (c1 : ℚ) * (1 - f) := mul_nonneg hc1q (by linarith)
    have t2 : (0 : ℚ) ≤ (c2 : ℚ) * f := mul_nonneg hc2q hf0
    linarith
  have hhi : (c1 : ℚ) + ((c2 : ℚ) - (c1 : ℚ)) * f ≤ 255 := by
    rw [e]
    have t1 : (c1 : ℚ) * (1 - f) ≤ 255 * (1 - f) :=
      mul_le_mul_of_nonneg_right hc1hq (by linarith)
    have t2 : (c2 : ℚ) * f ≤ 255 * f := mul_le_mul_of_nonneg_right hc2hq hf0
    linarith
  exact jsRound_bounds _ 0 255 (by exact_mod_cast hlo) (by exact_mod_cast hhi)

/-! ## The claims -/

/-- C1 counterexample: with the full profile on a 1000x1000 canvas the
`for` loop runs while `i < 1000000/15000 = 66.66...`, i.e. for
`i = 0, ..., 66`, creating 67 particles, whereas the claimed floor of
`min(area/densityFactor, maxParticles)` is 66. -/
theorem C1_counterexample :
    particleCount 1000 1000 false false = 67 ∧
      ⌊min ((1000 * 1000 : ℚ) / 15000) 100⌋₊ = 66 ∧ (67 : ℕ) ≠ 66 := by
  refine ⟨?_, ?_, by decide⟩
  · rw [particleCount]
    apply natCeil_eval <;> norm_num [numberOfParticles, initProfile]
  · apply natFloor_eval <;> norm_num

/-- C1 (amended): the particle count is a deterministic function of the
canvas extent and the device/motion profile, it never exceeds the
profile's `maxParticles`, and it equals the CEILING (not the floor) of
`min(area/densityFactor, maxParticles)`, because the `for` loop runs while
`i < numberOfParticles` with a fractional bound; in particular area
1,000,000 with the full profile yields 67 particles and area 786,432
(1024x768) yields 53. -/
theorem C1_particle_count (w h : ℚ) (reduced mobile : Bool) (i : ℕ) :
    ((i : ℚ) < numberOfParticles w h reduced mobile ↔
        i < particleCount w h reduced mobile) ∧
      particleCount w h reduced mobile =
        ⌈min (w * h / (initProfile reduced mobile).2)
          (initProfile reduced mobile).1⌉₊ ∧
      (particleCount w h reduced mobile : ℚ) ≤ (initProfile reduced mobile).1 ∧
      particleCount 1000 1000 false false = 67 ∧
      particleCount 1024 768 false false = 53 := by
  refine ⟨particleCount_loop_iff w h reduced mobile i, rfl, ?_, ?_, ?_⟩
  · rcases reduced with _ | _
    · rcases mobile with _ | _
      · show ((⌈min (w * h / 15000) (100 : ℚ)⌉₊ : ℕ) : ℚ) ≤ 100
        exact_mod_cast ceil_min_le (w * h / 15000) 100
      · show ((⌈min (w * h / 20000) (40 : ℚ)⌉₊ : ℕ) : ℚ) ≤ 40
        exact_mod_cast ceil_min_le (w * h / 20000) 40
    · show ((⌈min (w * h / 30000) (20 : ℚ)⌉₊ : ℕ) : ℚ) ≤ 20
      exact_mod_cast ceil_min_le (w * h / 30000) 20
  · rw [particleCount]
    apply natCeil_eval <;> norm_num [numberOfParticles, initProfile]
  · rw [particleCount]
    apply natCeil_eval <;> norm_num [numberOfParticles, initProfile]

/-- All three channels of an interpolated color stay in `[0, 255]` when
both anchors' channels do and the factor lies in `[0, 1]`. -/
theorem interpolateColor_bounds (c1 c2 : RGB) (f : ℚ)
    (hb1 : (0 ≤ c1.r ∧ c1.r ≤ 255) ∧ (0 ≤ c1.g ∧ c1.g ≤ 255) ∧
      (0 ≤ c1.b ∧ c1.b ≤ 255))
    (hb2 : (0 ≤ c2.r ∧ c2.r ≤ 255) ∧ (0 ≤ c2.g ∧ c2.g ≤ 255) ∧
      (0 ≤ c2.b ∧ c2.b ≤ 255))
    (hf0 : 0 ≤ f) (hf1 : f ≤ 1) :
    (0 ≤ (interpolateColor c1 c2 f).r ∧ (interpolateColor c1 c2 f).r ≤ 255) ∧
      (0 ≤ (interpolateColor c1 c2 f).g ∧ (interpolateColor c1 c2 f).g ≤ 255) ∧
      (0 ≤ (interpolateColor c1 c2 f).b ∧ (interpolateColor c1 c2 f).b ≤ 255) :=
  ⟨interp_channel_bounds c1.r c2.r f hb1.1.1 hb1.1.2 hb2.1.1 hb2.1.2 hf0 hf1,
   interp_channel_bounds c1.g c2.g f hb1.2.1.1 hb1.2.1.2 hb2.2.1.1 hb2.2.1.2
     hf0 hf1,
   interp_channel_bounds c1.b c2.b f hb1.2.2.1 hb1.2.2.2 hb2.2.2.1 hb2.2.2.2
     hf0 hf1⟩

/-- C8: for every nonnegative clock value and per-particle offset (hence
for every wrapped phase in `[0,1)`), each channel of the sampled color is
an integer in `[0, 255]`. -/
theorem C8_channel_range (t ofs : ℚ) (ht : 0 ≤ t) (hofs : 0 ≤ ofs) :
    (0 ≤ (getCurrentSunsetColor t ofs).r ∧
        (getCurrentSunsetColor t ofs).r ≤ 255) ∧
      (0 ≤ (getCurrentSunsetColor t ofs).g ∧
        (getCurrentSunsetColor t ofs).g ≤ 255) ∧
      (0 ≤ (getCurrentSunsetColor t ofs).b ∧
        (getCurrentSunsetColor t ofs).b ≤ 255) := by
  simp only [getCurrentSunsetColor]
  apply interpolateColor_bounds
  · exact paletteAt_bounds _
  · exact paletteAt_bounds _
  · exact Int.fract_nonneg _
  · exact le_of_lt (Int.fract_lt_one _)

/-- Witness for C8 at clock 1/2 with offset 0. -/
theorem C8_channel_range_witness :
    (0 : ℚ) ≤ 1 / 2 ∧
      (0 ≤ (getCurrentSunsetColor (1 / 2) 0).r ∧
          (getCurrentSunsetColor (1 / 2) 0).r ≤ 255) ∧
        (0 ≤ (getCurrentSunsetColor (1 / 2) 0).g ∧
          (getCurrentSunsetColor (1 / 2) 0).g ≤ 255) ∧
        (0 ≤ (getCurrentSunsetColor (1 / 2) 0).b ∧
          (getCurrentSunsetColor (1 / 2) 0).b ≤ 255) :=
  ⟨by norm_num, C8_channel_range (1 / 2) 0 (by norm_num) (by norm_num)⟩

/-- C7: with reduced motion preferred the rebuild creates at most 20
particles whatever the canvas extent, and the reduced-motion parameters
`(maxParticles, densityFactor) = (20, 30000)` win over the mobile ones
whenever both conditions hold, because the `prefersReducedMotion` branch
of `init` is tested first. -/
theorem C7_reduced_motion (w h : ℚ) (mobile : Bool) :
    particleCount w h true mobile ≤ 20 ∧
      initProfile true mobile = (20, 30000) := by
  constructor
  · show ⌈min (w * h / 30000) (20 : ℚ)⌉₊ ≤ 20
    exact ceil_min_le (w * h / 30000) 20
  · rfl

/-- C2: when the pointer coincides with the particle, `update` computes
`distance = 0` and `dx / distance = 0 / 0 = NaN`, takes the attraction
branch (`0 < 150`), and subtracts NaN from both coordinates: the code has
no zero-distance guard, so the position becomes NaN, contradicting the
claim that the division is guarded or the branch skipped. -/
theorem C2_zero_distance_nan (σ : ℚ → ℚ) (px py w h : ℚ) (p : Particle)
    (hσ : σ 0 = 0) (hx : p.x = some px) (hy : p.y = some py) :
    (Particle.update σ px py w h p).x = none ∧
      (Particle.update σ px py w h p).y = none := by
  simp [Particle.update, hx, hy, qSub, qAdd, qMul, qDiv, qLt, hσ]

/-- Witness for C2: a particle at `(10, 20)` with the pointer exactly
there ends the update with NaN coordinates (`Math.sqrt 0 = 0`, so the
`ratSqrt` hypothesis is the real square root's value at `0`). -/
theorem C2_zero_distance_nan_witness :
    ratSqrt 0 = 0 ∧
      (Particle.update ratSqrt 10 20 800 600
          ⟨some 10, some 20, 2, 10, 20, 5, 1 / 10, 1 / 10, 0, 0⟩).x = none ∧
        (Particle.update ratSqrt 10 20 800 600
          ⟨some 10, some 20, 2, 10, 20, 5, 1 / 10, 1 / 10, 0, 0⟩).y = none := by
  have h0 : ratSqrt 0 = 0 := by
    rw [ratSqrt]
    norm_num
  exact ⟨h0, C2_zero_distance_nan ratSqrt 10 20 800 600 _ h0 rfl rfl⟩

/-- C9: a particle outside the attraction radius (`distance >= 150`)
moving right advances by its velocity without clamping; its x-velocity
sign flips exactly in the update whose move crosses the right boundary
(`x + vx > width`) and is untouched while the moved position stays within
`[0, width]`. -/
theorem C9_right_boundary (σ : ℚ → ℚ) (mx my w h x0 y0 : ℚ) (p : Particle)
    (hx : p.x = some x0) (hy : p.y = some y0)
    (hfar : 150 ≤ σ ((mx - x0) * (mx - x0) + (my - y0) * (my - y0)))
    (hvx : 0 < p.vx) :
    (w < x0 + p.vx →
        (Particle.update σ mx my w h p).x = some (x0 + p.vx) ∧
          (Particle.update σ mx my w h p).vx = -p.vx) ∧
      (0 ≤ x0 + p.vx → x0 + p.vx ≤ w →
        (Particle.update σ mx my w h p).x = some (x0 + p.vx) ∧
          (Particle.update σ mx my w h p).vx = p.vx) := by
  have hnot : ¬ σ ((mx - x0) * (mx - x0) + (my - y0) * (my - y0)) < 150 :=
    not_lt.mpr hfar
  constructor
  · intro hcross
    simp [Particle.update, hx, hy, qSub, qAdd, qMul, qDiv, qLt, hnot, hcross]
  · intro hin0 hin1
    have h1 : ¬ x0 + p.vx < 0 := not_lt.mpr hin0
    have h2 : ¬ w < x0 + p.vx := not_lt.mpr hin1
    simp [Particle.update, hx, hy, qSub, qAdd, qMul, qDiv, qLt, hnot, h1, h2]

theorem ratSqrt_360000 : ratSqrt 360000 = 600 := by
  rw [ratSqrt]
  have h1 : (360000 : ℚ).num.toNat = 360000 := rfl
  have h2 : (360000 : ℚ).den = 1 := rfl
  have h3 : Nat.sqrt 360000 = 600 := by norm_num
  have h4 : Nat.sqrt 1 = 1 := rfl
  rw [h1, h2, h3, h4]
  norm_num

/-- Witness for C9: a particle at `(100, 0)` with `vx = 5`, pointer far
away at `(700, 0)` (true distance 600): against a 103-wide canvas the move
to `x = 105` crosses the boundary and flips `vx`; against a 200-wide
canvas it stays inside and `vx` is unchanged. -/
theorem C9_right_boundary_witness :
    (150 : ℚ) ≤ ratSqrt ((700 - 100) * (700 - 100) + (0 - 0) * (0 - 0)) ∧
      (103 : ℚ) < 100 + 5 ∧
      (Particle.update ratSqrt 700 0 103 600
          ⟨some 100, some 0, 2, 100, 0, 10, 5, 0, 0, 0⟩).x = some (100 + 5) ∧
      (Particle.update ratSqrt 700 0 103 600
          ⟨some 100, some 0, 2, 100, 0, 10, 5, 0, 0, 0⟩).vx = -5 ∧
      (Particle.update ratSqrt 700 0 200 600
          ⟨some 100, some 0, 2, 100, 0, 10, 5, 0, 0, 0⟩).x = some (100 + 5) ∧
      (Particle.update ratSqrt 700 0 200 600
          ⟨some 100, some 0, 2, 100, 0, 10, 5, 0, 0, 0⟩).vx = 5 := by
  have e : ((700 - 100) * (700 - 100) + (0 - 0) * (0 - 0) : ℚ) = 360000 := by
    norm_num
  have hfar : (150 : ℚ) ≤
      ratSqrt ((700 - 100) * (700 - 100) + (0 - 0) * (0 - 0)) := by
    rw [e, ratSqrt_360000]
    norm_num
  obtain ⟨hc, _⟩ := C9_right_boundary ratSqrt 700 0 103 600 100 0
    ⟨some 100, some 0, 2, 100, 0, 10, 5, 0, 0, 0⟩ rfl rfl hfar (by norm_num)
  obtain ⟨_, hnc⟩ := C9_right_boundary ratSqrt 700 0 200 600 100 0
    ⟨some 100, some 0, 2, 100, 0, 10, 5, 0, 0, 0⟩ rfl rfl hfar (by norm_num)
  obtain ⟨hx1, hv1⟩ := hc (by norm_num)
  obtain ⟨hx2, hv2⟩ := hnc (by norm_num) (by norm_num)
  exact ⟨hfar, by norm_num, hx1, hv1, hx2, hv2⟩

/-- The initial pointer state from `src/main.js` lines 54-55: before any
pointer event `mouseX` and `mouseY` hold `0`, a genuine position. -/
def mouseX0 : ℚ := 0

def mouseY0 : ℚ := 0

/-- Inside the attraction radius (`0 < distance < 150`) the update takes
the repulsion branch and displaces both coordinates by the force terms of
lines 121-130. -/
theorem update_attract (σ : ℚ → ℚ) (mx my w h x0 y0 d : ℚ) (p : Particle)
    (hx : p.x = some x0) (hy : p.y = some y0)
    (hd : σ ((mx - x0) * (mx - x0) + (my - y0) * (my - y0)) = d)
    (hd0 : d ≠ 0) (hdlt : d < 150) :
    (Particle.update σ mx my w h p).x =
      some (x0 - (mx - x0) / d * ((150 - d) / 150) * p.density * (1 / 2)) ∧
      (Particle.update σ mx my w h p).y =
        some (y0 - (my - y0) / d * ((150 - d) / 150) * p.density * (1 / 2)) := by
  have h150 : (150 : ℚ) ≠ 0 := by norm_num
  simp [Particle.update, hx, hy, qSub, qAdd, qMul, qDiv, qLt, hd, hd0, h150,
    hdlt]

/-- C4 counterexample: before any pointer event the code treats the
default pointer `(0, 0)` as a real position.  A particle at `(30, 40)`
(distance 50 from the origin, density 10, drift `vx = 1/10`) takes the
repulsion branch and lands at `x = 32`, not at the drift position
`30 + 1/10`: the attraction branch is NOT skipped when no pointer event
has been received. -/
theorem C4_counterexample :
    (Particle.update ratSqrt mouseX0 mouseY0 800 600
        ⟨some 30, some 40, 2, 30, 40, 10, 1 / 10, 0, 0, 0⟩).x = some 32 ∧
      some (32 : ℚ) ≠ some ((30 : ℚ) + 1 / 10) := by
  have e : ((mouseX0 - 30) * (mouseX0 - 30) +
      (mouseY0 - 40) * (mouseY0 - 40) : ℚ) = 2500 := by
    norm_num [mouseX0, mouseY0]
  have h50 : ratSqrt ((mouseX0 - 30) * (mouseX0 - 30) +
      (mouseY0 - 40) * (mouseY0 - 40)) = 50 := by
    rw [e, ratSqrt]
    have h1 : (2500 : ℚ).num.toNat = 2500 := rfl
    have h2 : (2500 : ℚ).den = 1 := rfl
    have h3 : Nat.sqrt 2500 = 50 := by norm_num
    have h4 : Nat.sqrt 1 = 1 := rfl
    rw [h1, h2, h3, h4]
    norm_num
  obtain ⟨hx1, _⟩ := update_attract ratSqrt mouseX0 mouseY0 800 600 30 40 50
    ⟨some 30, some 40, 2, 30, 40, 10, 1 / 10, 0, 0, 0⟩ rfl rfl h50
    (by norm_num) (by norm_num)
  constructor
  · rw [hx1]
    norm_num [mouseX0]
  · simp only [ne_eq, Option.some.injEq]
    norm_num

/-- C4 (amended): before any pointer event the pointer variables hold the
default `(0, 0)`, which is treated as a genuine pointer position; only a
particle whose distance from the origin is at least the attraction radius
150 advances purely by its drift velocity, while particles closer to the
origin take the repulsion branch (see the counterexample). -/
theorem C4_default_pointer (σ : ℚ → ℚ) (w h x0 y0 : ℚ) (p : Particle)
    (hx : p.x = some x0) (hy : p.y = some y0)
    (hfar : 150 ≤ σ ((mouseX0 - x0) * (mouseX0 - x0) +
      (mouseY0 - y0) * (mouseY0 - y0))) :
    (Particle.update σ mouseX0 mouseY0 w h p).x = some (x0 + p.vx) ∧
      (Particle.update σ mouseX0 mouseY0 w h p).y = some (y0 + p.vy) := by
  have hnot : ¬ σ ((mouseX0 - x0) * (mouseX0 - x0) +
      (mouseY0 - y0) * (mouseY0 - y0)) < 150 := not_lt.mpr hfar
  constructor <;>
    simp [Particle.update, hx, hy, qSub, qAdd, qMul, qDiv, qLt, hnot]

theorem ratSqrt_250000 : ratSqrt 250000 = 500 := by
  rw [ratSqrt]
  have h1 : (250000 : ℚ).num.toNat = 250000 := rfl
  have h2 : (250000 : ℚ).den = 1 := rfl
  have h3 : Nat.sqrt 250000 = 500 := by norm_num
  have h4 : Nat.sqrt 1 = 1 := rfl
  rw [h1, h2, h3, h4]
  norm_num

/-- Witness for C4 (amended): a particle at `(300, 400)` (distance 500
from the default pointer) advances exactly by its drift velocity. -/
theorem C4_default_pointer_witness :
    (150 : ℚ) ≤ ratSqrt ((mouseX0 - 300) * (mouseX0 - 300) +
        (mouseY0 - 400) * (mouseY0 - 400)) ∧
      (Particle.update ratSqrt mouseX0 mouseY0 800 600
          ⟨some 300, some 400, 2, 300, 400, 10, 1 / 10, 1 / 5, 0, 0⟩).x =
        some (300 + 1 / 10) ∧
      (Particle.update ratSqrt mouseX0 mouseY0 800 600
          ⟨some 300, some 400, 2, 300, 400, 10, 1 / 10, 1 / 5, 0, 0⟩).y =
        some (400 + 1 / 5) := by
  have e : ((mouseX0 - 300) * (mouseX0 - 300) +
      (mouseY0 - 400) * (mouseY0 - 400) : ℚ) = 250000 := by
    norm_num [mouseX0, mouseY0]
  have hfar : (150 : ℚ) ≤ ratSqrt ((mouseX0 - 300) * (mouseX0 - 300) +
      (mouseY0 - 400) * (mouseY0 - 400)) := by
    rw [e, ratSqrt_250000]
    norm_num
  obtain ⟨h1, h2⟩ := C4_default_pointer ratSqrt 800 600 300 400
    ⟨some 300, some 400, 2, 300, 400, 10, 1 / 10, 1 / 5, 0, 0⟩ rfl rfl hfar
  exact ⟨hfar, h1, h2⟩

/-- C5: for one unordered pair of the connector pass, if the true
distance `d` (characterized by `d >= 0` and `d * d = dx^2 + dy^2`)
exceeds the profile threshold then the squared-distance early exit fires
and no line is drawn, and if `d = 0` a line is drawn whose stroke alpha is
exactly `1 * 0.25 = 1/4 > 0`. -/
theorem C5_connector_pair (σ : ℚ → ℚ) (mobile : Bool) (ct ax ay bx b2 d : ℚ)
    (pa pb : Particle) (hax : pa.x = some ax) (hay : pa.y = some ay)
    (hbx : pb.x = some bx) (hby : pb.y = some b2) (hd0 : 0 ≤ d)
    (hdd : d * d = (ax - bx) * (ax - bx) + (ay - b2) * (ay - b2)) :
    ((if mobile then (100 : ℚ) else 120) < d →
        pairSegment σ mobile ct pa pb = none) ∧
      (d = 0 → σ 0 = 0 →
        pairSegment σ mobile ct pa pb =
            some (DrawCmd.line pa.x pa.y pb.x pb.y
              (interpolateColor (getCurrentSunsetColor ct pa.colorOffset)
                (getCurrentSunsetColor ct pb.colorOffset) (1 / 2))
              (some (1 / 4))) ∧
          (0 : ℚ) < 1 / 4) := by
  have hzero : d = 0 →
      (ax - bx) * (ax - bx) + (ay - b2) * (ay - b2) = 0 := by
    intro hdz
    rw [← hdd, hdz]
    ring
  rcases mobile with _ | _
  · constructor
    · intro hcross
      simp only [Bool.false_eq_true, if_false] at hcross
      have hs : (120 : ℚ) * 120 <
          (ax - bx) * (ax - bx) + (ay - b2) * (ay - b2) := by
        rw [← hdd]
        exact mul_self_lt_mul_self (by norm_num) hcross
      simp [pairSegment, hax, hay, hbx, hby, qSub, qAdd, qMul, qLt, hs]
    · intro hdz hσ0
      have hz := hzero hdz
      have hnc : ¬ (120 : ℚ) * 120 <
          (ax - bx) * (ax - bx) + (ay - b2) * (ay - b2) := by
        rw [hz]
        norm_num
      refine ⟨?_, by norm_num⟩
      simp [pairSegment, hax, hay, hbx, hby, qSub, qAdd, qMul, qDiv, qLt,
        hz, hσ0, hnc]
  · constructor
    · intro hcross
      simp only [if_true] at hcross
      have hs : (100 : ℚ) * 100 <
          (ax - bx) * (ax - bx) + (ay - b2) * (ay - b2) := by
        rw [← hdd]
        exact mul_self_lt_mul_self (by norm_num) hcross
      simp [pairSegment, hax, hay, hbx, hby, qSub, qAdd, qMul, qLt, hs]
    · intro hdz hσ0
      have hz := hzero hdz
      have hnc : ¬ (100 : ℚ) * 100 <
          (ax - bx) * (ax - bx) + (ay - b2) * (ay - b2) := by
        rw [hz]
        norm_num
      refine ⟨?_, by norm_num⟩
      simp [pairSegment, hax, hay, hbx, hby, qSub, qAdd, qMul, qDiv, qLt,
        hz, hσ0, hnc]

/-- Witness for C5: with the desktop threshold 120, the pair at distance
200 is skipped, and a coincident pair at `(50, 50)` gets a line with
stroke alpha `1/4`. -/
theorem C5_connector_pair_witness :
    (120 : ℚ) < 200 ∧
      pairSegment ratSqrt false 0 ⟨some 0, some 0, 2, 0, 0, 10, 0, 0, 0, 0⟩
          ⟨some 200, some 0, 2, 200, 0, 10, 0, 0, 0, 0⟩ = none ∧
      (pairSegment ratSqrt false 0 ⟨some 50, some 50, 2, 50, 50, 10, 0, 0, 0, 0⟩
            ⟨some 50, some 50, 2, 50, 50, 10, 0, 0, 0, 0⟩ =
          some (DrawCmd.line (some 50) (some 50) (some 50) (some 50)
            (interpolateColor (getCurrentSunsetColor 0 0)
              (getCurrentSunsetColor 0 0) (1 / 2)) (some (1 / 4))) ∧
        (0 : ℚ) < 1 / 4) := by
  have hσ0 : ratSqrt 0 = 0 := by
    rw [ratSqrt]
    norm_num
  obtain ⟨hskip, _⟩ := C5_connector_pair ratSqrt false 0 0 0 200 0 200
    ⟨some 0, some 0, 2, 0, 0, 10, 0, 0, 0, 0⟩
    ⟨some 200, some 0, 2, 200, 0, 10, 0, 0, 0, 0⟩ rfl rfl rfl rfl
    (by norm_num) (by norm_num)
  obtain ⟨_, hdraw⟩ := C5_connector_pair ratSqrt false 0 50 50 50 50 0
    ⟨some 50, some 50, 2, 50, 50, 10, 0, 0, 0, 0⟩
    ⟨some 50, some 50, 2, 50, 50, 10, 0, 0, 0, 0⟩ rfl rfl rfl rfl
    (by norm_num) (by norm_num)
  exact ⟨by norm_num, hskip (by norm_num), hdraw rfl hσ0⟩

/-! ## Update/draw call sequences (for the per-particle invariants) -/

/-- One call on a particle: an `update` with its pointer/extent context,
or a `draw`.  `Particle.draw` only returns canvas primitives (its type is
`Particle → List DrawCmd`), so a draw call leaves the particle as is. -/
inductive FieldCall where
  | upd (σ : ℚ → ℚ) (mx my w h : ℚ)
  | drw (sin : ℚ → ℚ) (pi ct : ℚ)

def applyCall (p : Particle) : FieldCall → Particle
  | FieldCall.upd σ mx my w h => Particle.update σ mx my w h p
  | FieldCall.drw _ _ _ => p

/-- A single update never touches `size`, `density`, `colorOffset` or
`pulsePhase`, and can only flip the sign of each velocity component. -/
theorem update_preserves (σ : ℚ → ℚ) (mx my w h : ℚ) (p : Particle) :
    (Particle.update σ mx my w h p).size = p.size ∧
      (Particle.update σ mx my w h p).density = p.density ∧
      (Particle.update σ mx my w h p).colorOffset = p.colorOffset ∧
      (Particle.update σ mx my w h p).pulsePhase = p.pulsePhase ∧
      |(Particle.update σ mx my w h p).vx| = |p.vx| ∧
      |(Particle.update σ mx my w h p).vy| = |p.vy| := by
  have habs : ∀ (c : Bool) (v : ℚ), |if c = true then -v else v| = |v| := by
    intro c v
    cases c
    · simp
    · simp [abs_neg]
  simp only [Particle.update]
  split
  · exact ⟨rfl, rfl, rfl, rfl, rfl, rfl⟩
  · exact ⟨rfl, rfl, rfl, rfl, habs _ p.vx, habs _ p.vy⟩

/-- C10: over any sequence of update and draw calls, `size`, `density`,
`colorOffset` and `pulsePhase` keep their creation values and the
velocity magnitudes `|vx|`, `|vy|` are preserved — update mutates only the
position and the velocity signs, and draw mutates nothing. -/
theorem C10_particle_invariants (p : Particle) (calls : List FieldCall) :
    (calls.foldl applyCall p).size = p.size ∧
      (calls.foldl applyCall p).density = p.density ∧
      (calls.foldl applyCall p).colorOffset = p.colorOffset ∧
      (calls.foldl applyCall p).pulsePhase = p.pulsePhase ∧
      |(calls.foldl applyCall p).vx| = |p.vx| ∧
      |(calls.foldl applyCall p).vy| = |p.vy| := by
  induction calls generalizing p with
  | nil => exact ⟨rfl, rfl, rfl, rfl, rfl, rfl⟩
  | cons c rest ih =>
      rw [List.foldl_cons]
      have h1 := ih (applyCall p c)
      cases c with
      | upd σ mx my w h =>
          have h2 := update_preserves σ mx my w h p
          exact ⟨h1.1.trans h2.1, h1.2.1.trans h2.2.1,
            h1.2.2.1.trans h2.2.2.1, h1.2.2.2.1.trans h2.2.2.2.1,
            h1.2.2.2.2.1.trans h2.2.2.2.2.1, h1.2.2.2.2.2.trans h2.2.2.2.2.2⟩
      | drw sf pi ct => exact h1

/-- C3 counterexample: the palette is NOT a closed ring — its first entry
`(255,140,66)` and last entry `(201,108,77)` differ by 54 in the red
channel — and the sampled color jumps at the modulo-1 wrap: at phase
`9999/10000` it is `(201,108,77)` while at phase `0` it is
`(255,140,66)`. -/
theorem C3_counterexample :
    paletteAt 0 = ⟨255, 140, 66⟩ ∧ paletteAt 6 = ⟨201, 108, 77⟩ ∧
      paletteAt 0 ≠ paletteAt 6 ∧ (paletteAt 0).r - (paletteAt 6).r = 54 ∧
      getCurrentSunsetColor 0 0 = ⟨255, 140, 66⟩ ∧
      getCurrentSunsetColor (9999 / 10000) 0 = ⟨201, 108, 77⟩ := by
  refine ⟨rfl, rfl, by decide, by decide, ?_, ?_⟩
  · rw [getCurrentSunsetColor_eval 0 0 0 0
      (jsMod1_eval _ _ (by norm_num) (by norm_num) (by norm_num))
      (by norm_num) (by norm_num) (by norm_num)]
    simp only [paletteAt, sunsetColors, List.getD_cons_zero,
      List.getD_cons_succ, interpolateColor, RGB.mk.injEq]
    refine ⟨?_, ?_, ?_⟩ <;> apply jsRound_eq <;> push_cast <;> norm_num
  · rw [getCurrentSunsetColor_eval (9999 / 10000) 0 (9999 / 10000) 5
      (jsMod1_eval _ _ (by norm_num) (by norm_num) (by norm_num))
      (by norm_num) (by norm_num) (by norm_num)]
    simp only [paletteAt, sunsetColors, List.getD_cons_zero,
      List.getD_cons_succ, interpolateColor, RGB.mk.injEq]
    refine ⟨?_, ?_, ?_⟩ <;> apply jsRound_eq <;> push_cast <;> norm_num

/-- C3 (amended): the sampled color is continuous inside `[0,1)` — at
each interior knot `k/6` the two adjacent linear segments agree exactly —
but it is NOT continuous across the modulo-1 wrap: for every
`ε ∈ (0, 1/1000]` the sample at phase `1 - ε` is the constant
`(201,108,77)` while the sample at phase `0` is `(255,140,66)`, because
the palette's last entry repeats its second entry, not its first. -/
theorem C3_wrap_jump :
    (∀ ε : ℚ, 0 < ε → ε ≤ 1 / 1000 →
        getCurrentSunsetColor (1 - ε) 0 = ⟨201, 108, 77⟩) ∧
      getCurrentSunsetColor 0 0 = ⟨255, 140, 66⟩ ∧
      (∀ k : ℕ, 1 ≤ k → k ≤ 5 →
        getCurrentSunsetColor ((k : ℚ) / 6) 0 = paletteAt k ∧
          interpolateColor (paletteAt (k - 1)) (paletteAt k) 1 = paletteAt k) ∧
      paletteAt 0 ≠ paletteAt 6 := by
  refine ⟨?_, ?_, ?_, by decide⟩
  · intro ε hε0 hε1
    rw [getCurrentSunsetColor_eval (1 - ε) 0 (1 - ε) 5
      (jsMod1_eval _ _ (by ring) (by linarith) (by linarith))
      (by norm_num) (by push_cast; nlinarith) (by push_cast; nlinarith)]
    simp only [paletteAt, sunsetColors, List.getD_cons_zero,
      List.getD_cons_succ, interpolateColor, RGB.mk.injEq]
    refine ⟨?_, ?_, ?_⟩ <;> apply jsRound_eq <;> push_cast <;> nlinarith
  · rw [getCurrentSunsetColor_eval 0 0 0 0
      (jsMod1_eval _ _ (by norm_num) (by norm_num) (by norm_num))
      (by norm_num) (by norm_num) (by norm_num)]
    simp only [paletteAt, sunsetColors, List.getD_cons_zero,
      List.getD_cons_succ, interpolateColor, RGB.mk.injEq]
    refine ⟨?_, ?_, ?_⟩ <;> apply jsRound_eq <;> push_cast <;> norm_num
  · intro k hk1 hk5
    interval_cases k
    · refine ⟨?_, ?_⟩
      · rw [getCurrentSunsetColor_eval _ 0 (1 / 6) 1
          (jsMod1_eval _ _ (by push_cast; norm_num) (by norm_num)
            (by norm_num))
          (by norm_num) (by push_cast; norm_num) (by push_cast; norm_num)]
        simp only [paletteAt, sunsetColors, List.getD_cons_zero,
          List.getD_cons_succ, interpolateColor, RGB.mk.injEq]
        refine ⟨?_, ?_, ?_⟩ <;> apply jsRound_eq <;> push_cast <;> norm_num
      · simp only [paletteAt, sunsetColors, List.getD_cons_zero,
          List.getD_cons_succ, interpolateColor, RGB.mk.injEq]
        refine ⟨?_, ?_, ?_⟩ <;> apply jsRound_eq <;> push_cast <;> norm_num
    · refine ⟨?_, ?_⟩
      · rw [getCurrentSunsetColor_eval _ 0 (2 / 6) 2
          (jsMod1_eval _ _ (by push_cast; norm_num) (by norm_num)
            (by norm_num))
          (by norm_num) (by push_cast; norm_num) (by push_cast; norm_num)]
        simp only [paletteAt, sunsetColors, List.getD_cons_zero,
          List.getD_cons_succ, interpolateColor, RGB.mk.injEq]
        refine ⟨?_, ?_, ?_⟩ <;> apply jsRound_eq <;> push_cast <;> norm_num
      · simp only [paletteAt, sunsetColors, List.getD_cons_zero,
          List.getD_cons_succ, interpolateColor, RGB.mk.injEq]
        refine ⟨?_, ?_, ?_⟩ <;> apply jsRound_eq <;> push_cast <;> norm_num
    · refine ⟨?_, ?_⟩
      · rw [getCurrentSunsetColor_eval _ 0 (3 / 6) 3
          (jsMod1_eval _ _ (by push_cast; norm_num) (by norm_num)
            (by norm_num))
          (by norm_num) (by push_cast; norm_num) (by push_cast; norm_num)]
        simp only [paletteAt, sunsetColors, List.getD_cons_zero,
          List.getD_cons_succ, interpolateColor, RGB.mk.injEq]
        refine ⟨?_, ?_, ?_⟩ <;> apply jsRound_eq <;> push_cast <;> norm_num
      · simp only [paletteAt, sunsetColors, List.getD_cons_zero,
          List.getD_cons_succ, interpolateColor, RGB.mk.injEq]
        refine ⟨?_, ?_, ?_⟩ <;> apply jsRound_eq <;> push_cast <;> norm_num
    · refine ⟨?_, ?_⟩
      · rw [getCurrentSunsetColor_eval _ 0 (4 / 6) 4
          (jsMod1_eval _ _ (by push_cast; norm_num) (by norm_num)
            (by norm_num))
          (by norm_num) (by push_cast; norm_num) (by push_cast; norm_num)]
        simp only [paletteAt, sunsetColors, List.getD_cons_zero,
          List.getD_cons_succ, interpolateColor, RGB.mk.injEq]
        refine ⟨?_, ?_, ?_⟩ <;> apply jsRound_eq <;> push_cast <;> norm_num
      · simp only [paletteAt, sunsetColors, List.getD_cons_zero,
          List.getD_cons_succ, interpolateColor, RGB.mk.injEq]
        refine ⟨?_, ?_, ?_⟩ <;> apply jsRound_eq <;> push_cast <;> norm_num
    · refine ⟨?_, ?_⟩
      · rw [getCurrentSunsetColor_eval _ 0 (5 / 6) 5
          (jsMod1_eval _ _ (by push_cast; norm_num) (by norm_num)
            (by norm_num))
          (by norm_num) (by push_cast; norm_num) (by push_cast; norm_num)]
        simp only [paletteAt, sunsetColors, List.getD_cons_zero,
          List.getD_cons_succ, interpolateColor, RGB.mk.injEq]
        refine ⟨?_, ?_, ?_⟩ <;> apply jsRound_eq <;> push_cast <;> norm_num
      · simp only [paletteAt, sunsetColors, List.getD_cons_zero,
          List.getD_cons_succ, interpolateColor, RGB.mk.injEq]
        refine ⟨?_, ?_, ?_⟩ <;> apply jsRound_eq <;> push_cast <;> norm_num

/-- Witness for C3 (amended) at `ε = 1/2000` and knot `k = 3`. -/
theorem C3_wrap_jump_witness :
    (0 : ℚ) < 1 / 2000 ∧ (1 / 2000 : ℚ) ≤ 1 / 1000 ∧
      getCurrentSunsetColor (1 - 1 / 2000) 0 = ⟨201, 108, 77⟩ ∧
      getCurrentSunsetColor 0 0 = ⟨255, 140, 66⟩ ∧
      getCurrentSunsetColor ((3 : ℚ) / 6) 0 = paletteAt 3 := by
  obtain ⟨hwrap, hzero, hknots, _⟩ := C3_wrap_jump
  obtain ⟨hk3, _⟩ := hknots 3 (by norm_num) (by norm_num)
  refine ⟨by norm_num, by norm_num,
    hwrap (1 / 2000) (by norm_num) (by norm_num), hzero, ?_⟩
  exact_mod_cast hk3

/-- In any reachable state with both visibility signals true, a start
leaves the controller animating. -/
theorem startAnimation_isAnimating (σ : ℚ → ℚ) (s : AnimState)
    (hpv : s.isPageVisible = true) (hcv : s.isCanvasVisible = true) :
    (startAnimation σ s).isAnimating = true := by
  cases han : s.isAnimating
  · rw [startAnimation]
    have hg : (!s.isAnimating && s.isPageVisible && s.isCanvasVisible)
        = true := by
      rw [han, hpv, hcv]
      rfl
    rw [if_pos hg, animate]
    have hv : (!s.isPageVisible || !s.isCanvasVisible) = false := by
      rw [hpv, hcv]
      rfl
    rw [hv]
    rfl
  · rw [startAnimation]
    have hg : (!s.isAnimating && s.isPageVisible && s.isCanvasVisible)
        = false := by
      rw [han]
      rfl
    rw [if_neg (by rw [hg]; exact Bool.false_ne_true)]
    exact han

/-- C6: in every reachable lifecycle state, starting is idempotent (a
second start in a row changes nothing, so there is never a second
concurrent loop); with both visibility signals true one start yields
exactly one scheduled frame; stopping an already stopped controller is a
no-op; and stopping always leaves the scheduled-frame queue empty
(cancelling any in-flight request). -/
theorem C6_lifecycle (σ : ℚ → ℚ) (pv : Bool) (w h : ℚ) (ps : List Particle)
    (s : AnimState) (hr : Reach σ pv w h ps s) :
    startAnimation σ (startAnimation σ s) = startAnimation σ s ∧
      (s.isPageVisible = true → s.isCanvasVisible = true →
        (startAnimation σ (startAnimation σ s)).pending.length = 1) ∧
      (startAnimation σ s).pending.length ≤ 1 ∧
      (s.isAnimating = false → s.animationId = none → stopAnimation s = s) ∧
      (stopAnimation s).pending = [] := by
  have hinv := Reach_LoopInv σ pv w h ps s hr
  have hstartInv := LoopInv_start σ s hinv
  have hidem : startAnimation σ (startAnimation σ s) = startAnimation σ s := by
    by_cases hg : (!s.isAnimating && s.isPageVisible && s.isCanvasVisible)
        = true
    · have h1 : startAnimation σ s = animate σ s := by
        rw [startAnimation, if_pos hg]
      have hpv : s.isPageVisible = true := by
        rcases Bool.and_eq_true_iff.mp hg with ⟨h3, _⟩
        exact (Bool.and_eq_true_iff.mp h3).2
      have hcv : s.isCanvasVisible = true := (Bool.and_eq_true_iff.mp hg).2
      have h2 : (animate σ s).isAnimating = true := by
        rw [animate]
        have hv : (!s.isPageVisible || !s.isCanvasVisible) = false := by
          rw [hpv, hcv]
          rfl
        rw [hv]
        rfl
      rw [h1]
      rw [startAnimation]
      have hg2 : ¬ (!(animate σ s).isAnimating &&
          (animate σ s).isPageVisible && (animate σ s).isCanvasVisible)
          = true := by
        rw [h2]
        simp
      rw [if_neg hg2]
    · have h1 : startAnimation σ s = s := by
        rw [startAnimation, if_neg hg]
      rw [h1, h1]
  have hlen : (startAnimation σ s).pending.length ≤ 1 := by
    rcases hstartInv with ⟨ha, hb⟩
    cases han : (startAnimation σ s).isAnimating
    · rw [hb han]
      simp
    · obtain ⟨i, _, hp⟩ := ha han
      rw [hp]
      simp
  refine ⟨hidem, ?_, hlen, ?_, ?_⟩
  · intro hpv hcv
    rw [hidem]
    have han : (startAnimation σ s).isAnimating = true :=
      startAnimation_isAnimating σ s hpv hcv
    obtain ⟨i, _, hp⟩ := hstartInv.1 han
    rw [hp]
    rfl
  · intro h1 h2
    have e : stopAnimation s = { s with isAnimating := false } := by
      simp only [stopAnimation, h2]
    rw [e, ← h1]
  · rcases hinv with ⟨ha, hb⟩
    cases hid : s.animationId with
    | some i =>
        have e : (stopAnimation s).pending = s.pending.erase i := by
          simp only [stopAnimation, hid]
        rw [e]
        cases han : s.isAnimating
        · rw [hb han]
          rfl
        · obtain ⟨j, hj1, hj2⟩ := ha han
          rw [hid] at hj1
          have hji : i = j := Option.some_inj.mp hj1
          rw [hj2, hji]
          simp
    | none =>
        have e : (stopAnimation s).pending = s.pending := by
          simp only [stopAnimation, hid]
        rw [e]
        cases han : s.isAnimating
        · exact hb han
        · obtain ⟨j, hj1, _⟩ := ha han
          rw [hid] at hj1
          exact absurd hj1 (by simp)

/-- Witness for C6 at the initial state of a hidden page (`pv = false`,
so the initial `startAnimation()` call leaves the controller stopped):
double start equals single start, the queue holds at most one frame, stop
is a no-op, and stop leaves the queue empty. -/
theorem C6_lifecycle_witness :
    startAnimation (fun q => q) (startAnimation (fun q => q)
        (initState (fun q => q) false 0 0 [])) =
      startAnimation (fun q => q) (initState (fun q => q) false 0 0 []) ∧
      (startAnimation (fun q => q)
        (initState (fun q => q) false 0 0 [])).pending.length ≤ 1 ∧
      stopAnimation (initState (fun q => q) false 0 0 []) =
        initState (fun q => q) false 0 0 [] ∧
      (stopAnimation (initState (fun q => q) false 0 0 [])).pending = [] := by
  obtain ⟨h1, _, h3, h4, h5⟩ := C6_lifecycle (fun q => q) false 0 0 []
    (initState (fun q => q) false 0 0 []) Reach.init
  exact ⟨h1, h3, h4 rfl rfl, h5⟩
